import Mathlib

/-!
Verification of the two utility scripts of the mindnoscape repository:
`src/local-app/script/dbprint.py` (the Database Dumper) and
`src/local-app/script/linecount.py` (the Line Counter).

The scripts are embedded shallowly: the database and the filesystem are
explicit finite data, the SQLite driver calls that can raise are modelled
with `Option` results, and a raised exception is propagated as `Except.error`
(for the line counter) or recorded in the run result (for the dumper, where
the claim of interest is whether `conn.close()` is reached).
-/

namespace Dbprint

/-- A SQLite column value as surfaced by the Python driver in the rows the
script prints: an integer or a text value (text without quote or escape
characters, which is all the claims exercise). -/
inductive PyVal where
  | int (n : Int)
  | str (s : String)
deriving DecidableEq

/-- Python `repr` of one value: integers print bare, strings print between
single quotes. -/
def pyReprVal : PyVal → String
  | PyVal.int n => toString n
  | PyVal.str s => "\x27" ++ s ++ "\x27"

/-- Python `print(row)` rendering of a driver row (a tuple): comma-and-space
separated values between parentheses, with the one-element tuple printed with
a trailing comma as Python does. -/
def pyReprRow (r : List PyVal) : String :=
  match r with
  | [v] => "(" ++ pyReprVal v ++ ",)"
  | vs => "(" ++ String.intercalate ", " (vs.map pyReprVal) ++ ")"

/-- One table as the script sees it: its name from the schema catalog, and
the result of `SELECT * FROM <name>`.  `rows = none` models that content
query raising (for example the table was dropped between enumeration and the
content fetch). -/
structure Table where
  name : String
  rows : Option (List (List PyVal))
deriving DecidableEq

/-- The database behind the connection.  `catalog` is the result of the
schema-catalog query `SELECT name FROM sqlite_master WHERE type='table'`;
`none` models that query raising. -/
structure DB where
  catalog : Option (List Table)
deriving DecidableEq

/-- Result of one run of `dbprint.py`: the lines printed to standard output,
whether `conn.close()` was executed, and whether the run finished without an
exception. -/
structure RunResult where
  output : List String
  closed : Bool
  ok : Bool
deriving DecidableEq

/-- Line printed by `print(f"\nContent of table '{table[0]}':")`, after the
blank line the leading newline produces. -/
def contentHeader (n : String) : String :=
  "Content of table \x27" ++ n ++ "\x27:"

/-- Header printed by `print("Tables in the database:")`. -/
def tablesHeader : String := "Tables in the database:"

/-- The second loop of the script: for each table print a blank line and the
content header, run the content query and print each row.  Returns the lines
printed and whether every content query succeeded; a failing query raises
after its header was printed, ending the loop. -/
def dumpTables : List Table → List String × Bool
  | [] => ([], true)
  | t :: ts =>
    match t.rows with
    | none => (["", contentHeader t.name], false)
    | some rs =>
      let rest := dumpTables ts
      ("" :: contentHeader t.name :: ((rs.map pyReprRow) ++ rest.1), rest.2)

/-- The whole script, from the schema-catalog query to `conn.close()`.
If the catalog query raises, nothing is printed and close is never reached;
otherwise the table-name header and names print, then the content loop runs,
and `conn.close()` executes only if no content query raised. -/
def dbprint_run (db : DB) : RunResult :=
  match db.catalog with
  | none => { output := [], closed := false, ok := false }
  | some tables =>
    let body := dumpTables tables
    { output := tablesHeader :: (tables.map Table.name ++ body.1)
      closed := body.2
      ok := body.2 }

/-- A database whose single table raises on the content query, as when the
table is dropped between enumeration and the content fetch. -/
def dbDropped : DB := ⟨some [⟨"users", none⟩]⟩

/-- The end-to-end scenario database: one table `users` with rows
`(1, 'alice')` and `(2, 'bob')`. -/
def dbUsers : DB :=
  ⟨some [⟨"users", some [[PyVal.int 1, PyVal.str "alice"],
                         [PyVal.int 2, PyVal.str "bob"]]⟩]⟩

/-- Helper: when every content query succeeds, the content loop prints, for
each table in order, a blank line, the content header, and one line per row,
and the loop finishes without raising. -/
theorem dumpTables_eq_of_ok (ts : List Table)
    (h : ∀ t ∈ ts, t.rows ≠ none) :
    dumpTables ts =
      (ts.flatMap (fun t => "" :: contentHeader t.name ::
        (t.rows.getD []).map pyReprRow), true) := by
  induction ts with
  | nil => rfl
  | cons t ts ih =>
    have ht : t.rows ≠ none := h t (List.mem_cons_self t ts)
    obtain ⟨rs, hrs⟩ := Option.ne_none_iff_exists'.mp ht
    have ih2 := ih (fun u hu => h u (List.mem_cons_of_mem t hu))
    simp [dumpTables, hrs, ih2]

/-- C1 counterexample: on a database whose single table raises during the
content query (the table dropped between enumeration and fetch), the run
fails and `conn.close()` is never executed, so the connection is not
released on this exit path. -/
theorem dbprint_close_not_guaranteed :
    (dbprint_run dbDropped).closed = false ∧ (dbprint_run dbDropped).ok = false := by
  decide

/-- C1 (amended): the connection is closed on every run that finishes
without an exception; a failure raised during table enumeration or during a
per-table content query propagates before the close call, so on those exit
paths the connection is not released. -/
theorem dbprint_close_on_success (db : DB) (h : (dbprint_run db).ok = true) :
    (dbprint_run db).closed = true := by
  cases db with
  | mk catalog =>
    cases catalog with
    | none => simp [dbprint_run] at h
    | some tables =>
      simp [dbprint_run] at h ⊢
      exact h

/-- Witness for C1 (amended) at the successful `users` database. -/
theorem dbprint_close_on_success_witness :
    (dbprint_run dbUsers).ok = true ∧ (dbprint_run dbUsers).closed = true :=
  ⟨by decide, dbprint_close_on_success dbUsers (by decide)⟩

/-- C2: for every database all of whose content queries succeed, the output
is exactly the header line, one table name per line, then for each table a
blank line, the content header, and one line per row; and the end-to-end
`users` scenario prints exactly the six lines the spec shows. -/
theorem dbprint_output_format :
    (∀ ts : List Table, (∀ t ∈ ts, t.rows ≠ none) →
        (dbprint_run ⟨some ts⟩).output =
          tablesHeader :: (ts.map Table.name ++
            ts.flatMap (fun t => "" :: contentHeader t.name ::
              (t.rows.getD []).map pyReprRow))) ∧
    (dbprint_run dbUsers).output =
      ["Tables in the database:", "users", "",
       "Content of table \x27users\x27:", "(1, \x27alice\x27)", "(2, \x27bob\x27)"] := by
  constructor
  · intro ts h
    simp [dbprint_run, dumpTables_eq_of_ok ts h]
  · rfl

/-- Witness for C2 at the `users` scenario database. -/
theorem dbprint_output_format_witness :
    (dbprint_run ⟨some [⟨"users", some [[PyVal.int 1, PyVal.str "alice"],
        [PyVal.int 2, PyVal.str "bob"]]⟩]⟩).output =
      tablesHeader :: (["users"] ++
        ["", contentHeader "users", pyReprRow [PyVal.int 1, PyVal.str "alice"],
         pyReprRow [PyVal.int 2, PyVal.str "bob"]]) := by
  simpa using dbprint_output_format.1
    [⟨"users", some [[PyVal.int 1, PyVal.str "alice"],
        [PyVal.int 2, PyVal.str "bob"]]⟩] (by simp)

/-- C3: a database whose schema catalog holds zero tables produces only the
table-list header line: no table names and no content sections. -/
theorem dbprint_zero_tables (db : DB) (h : db.catalog = some []) :
    (dbprint_run db).output = [tablesHeader] := by
  cases db with
  | mk catalog =>
    cases h
    rfl

/-- Witness for C3 at the empty-catalog database. -/
theorem dbprint_zero_tables_witness :
    (dbprint_run ⟨some []⟩).output = [tablesHeader] :=
  dbprint_zero_tables ⟨some []⟩ rfl

end Dbprint

namespace Linecount

/-- A regular file as `os.walk` reports it: its name, and the decoded text
the `open`/`readlines` pair yields.  `content = none` models the file
failing to open (permission denied, broken symlink) or failing to decode as
UTF-8, either of which raises in the `with open` block. -/
structure PFile where
  name : String
  content : Option (List Char)
deriving DecidableEq

mutual
/-- A node of the directory tree below the traversal root: a regular file or
a subdirectory with its entries, in filesystem enumeration order. -/
inductive FSNode where
  | file (name : String) (content : Option (List Char))
  | dir (name : String) (entries : FSEntries)
/-- The entry sequence of one directory, a plain list of nodes; it is kept
as a mutual inductive with `FSNode` so that the walk below is structurally
recursive. -/
inductive FSEntries where
  | nil
  | cons (e : FSNode) (es : FSEntries)
end

/-- Directory entries written as an ordinary list of nodes. -/
def entriesOfList : List FSNode → FSEntries
  | [] => FSEntries.nil
  | e :: es => FSEntries.cons e (entriesOfList es)

/-- The regular files directly inside a directory, in enumeration order:
the `files` component of one `os.walk` triple. -/
def filesOf : FSEntries → List PFile
  | FSEntries.nil => []
  | FSEntries.cons (FSNode.file n c) es => ⟨n, c⟩ :: filesOf es
  | FSEntries.cons (FSNode.dir _ _) es => filesOf es

/-- Model of `os.path.join` on the paths the walk builds. -/
def pathJoin (a b : String) : String := a ++ "/" ++ b

mutual
/-- The part of the top-down walk contributed by one entry: a file
contributes nothing; a subdirectory contributes its own triple followed by
the walk of its entries, as in `os.walk`. -/
def walkNode (path : String) : FSNode → List (String × List PFile)
  | FSNode.file _ _ => []
  | FSNode.dir n sub =>
    (pathJoin path n, filesOf sub) :: walkEntries (pathJoin path n) sub
/-- The sub-walks of the entries of a directory, in enumeration order. -/
def walkEntries (path : String) : FSEntries → List (String × List PFile)
  | FSEntries.nil => []
  | FSEntries.cons e es => walkNode path e ++ walkEntries path es
end

/-- Model of `os.walk(path)` over the tree `es` rooted at `path`: the root's
triple first (top-down), then the sub-walks of its subdirectories.  Only the
root path and the file list of each triple are kept, because the script
binds the directory-list component to `_`. -/
def osWalk (path : String) (es : FSEntries) : List (String × List PFile) :=
  (path, filesOf es) :: walkEntries path es

/-- Python `str.endswith` on the underlying character lists: true exactly
when the last characters of `s` are `suffix`, compared case-sensitively. -/
def listEndswith (s suffix : List Char) : Bool :=
  s.drop (s.length - suffix.length) == suffix

/-- Python `file.endswith(suffix)` for the names the walk yields. -/
def pyEndswith (s suffix : String) : Bool :=
  listEndswith s.data suffix.data

/-- Python `f.readlines()` on decoded text: lines are cut after each
newline character, a trailing unterminated segment is a final line, and
empty text yields no lines. -/
def pyReadlines : List Char → List (List Char)
  | [] => []
  | c :: cs =>
    if c = '\n' then [c] :: pyReadlines cs
    else
      match pyReadlines cs with
      | [] => [[c]]
      | l :: ls => (c :: l) :: ls

/-- The body of the inner loop for one file: if the name ends in `.go`,
increment the file counter, open the file and add `len(f.readlines())` to
the line total, where a file that cannot be opened or decoded raises;
otherwise the file is skipped untouched.  The accumulator is
`(go_files_count, total_lines)`. -/
def processFile (acc : Nat × Nat) (f : PFile) : Except Unit (Nat × Nat) :=
  if pyEndswith f.name ".go" then
    match f.content with
    | none => Except.error ()
    | some c => Except.ok (acc.1 + 1, acc.2 + (pyReadlines c).length)
  else Except.ok acc

/-- The inner `for file in files` loop of `count_go_lines`: an exception
raised for one file propagates, abandoning the rest of the loop. -/
def processFiles : Nat × Nat → List PFile → Except Unit (Nat × Nat)
  | acc, [] => Except.ok acc
  | acc, f :: fs =>
    match processFile acc f with
    | Except.error e => Except.error e
    | Except.ok a => processFiles a fs

/-- The outer `for root, _, files in os.walk(directory)` loop. -/
def processWalk : Nat × Nat → List (String × List PFile) → Except Unit (Nat × Nat)
  | acc, [] => Except.ok acc
  | acc, (_, fs) :: rest =>
    match processFiles acc fs with
    | Except.error e => Except.error e
    | Except.ok a => processWalk a rest

/-- Model of `count_go_lines(directory)` over the tree `es` rooted at
`directory`: both counters start at zero and accumulate over the walk;
the returned pair is `(go_files_count, total_lines)`, or an error when a
matching file raised. -/
def count_go_lines (directory : String) (es : FSEntries) :
    Except Unit (Nat × Nat) :=
  processWalk (0, 0) (osWalk directory es)

/-- Model of the `__main__` block: run `count_go_lines` on the current
directory and print the two summary lines. -/
def lineCounterMain (es : FSEntries) : Except Unit (List String) :=
  match count_go_lines "." es with
  | Except.error e => Except.error e
  | Except.ok (c, t) =>
    Except.ok ["Total Go files: " ++ toString c,
               "Total lines of Go code: " ++ toString t]

/-- Modelled from the spec: the line count of a piece of decoded text under
the spec's line-splitting rule — "splits on line-terminator sequences; a
trailing unterminated final line still counts as one line; an empty file
yields zero lines".  Stated independently of `pyReadlines` so the code's
count can be compared against it. -/
def specLineCount (c : List Char) : Nat :=
  c.count '\n' + (if c = [] then 0 else if c.getLast? = some '\n' then 0 else 1)

/-- Helper: splitting off a leading newline character yields that newline as
a one-character line followed by the lines of the rest. -/
theorem pyReadlines_cons_nl (cs : List Char) :
    pyReadlines ('\n' :: cs) = ['\n'] :: pyReadlines cs := by
  simp [pyReadlines]

/-- Helper: a leading non-newline character is prepended to the first line
of the rest, or begins the only line when the rest has none. -/
theorem pyReadlines_cons_ne (a : Char) (cs : List Char) (ha : ¬a = '\n') :
    pyReadlines (a :: cs) =
      (match pyReadlines cs with
       | [] => [[a]]
       | l :: ls => (a :: l) :: ls) := by
  simp only [pyReadlines, if_neg ha]

/-- Helper: nonempty text always splits into at least one line. -/
theorem pyReadlines_ne_nil (c : Char) (cs : List Char) :
    pyReadlines (c :: cs) ≠ [] := by
  by_cases hc : c = '\n'
  · subst hc
    simp [pyReadlines_cons_nl]
  · rw [pyReadlines_cons_ne c cs hc]
    split
    · simp
    · simp

/-- Helper: the spec-side line count steps over a leading character of a
text that still has at least one more character. -/
theorem specLineCount_cons_cons (a b : Char) (bs : List Char) :
    specLineCount (a :: b :: bs) =
      (if a = '\n' then 1 else 0) + specLineCount (b :: bs) := by
  by_cases ha : a = '\n'
  · simp [specLineCount, List.count_cons, List.getLast?_cons_cons, ha]
    omega
  · simp [specLineCount, List.count_cons, List.getLast?_cons_cons, ha]

/-- Refinement: the number of lines `f.readlines()` yields equals the line
count the spec describes (newline-terminated segments plus a trailing
unterminated final line, zero for empty text). -/
theorem pyReadlines_length (c : List Char) :
    (pyReadlines c).length = specLineCount c := by
  induction c with
  | nil => rfl
  | cons a cs ih =>
    cases cs with
    | nil =>
      by_cases ha : a = '\n'
      · subst ha
        rfl
      · rw [pyReadlines_cons_ne a [] ha]
        simp [specLineCount, List.count_cons, ha]
        rfl
    | cons b bs =>
      rw [specLineCount_cons_cons]
      by_cases ha : a = '\n'
      · subst ha
        rw [pyReadlines_cons_nl, List.length_cons, ih]
        simp
        omega
      · cases hpy : pyReadlines (b :: bs) with
        | nil => exact absurd hpy (pyReadlines_ne_nil b bs)
        | cons l ls =>
          rw [hpy] at ih
          rw [pyReadlines_cons_ne a (b :: bs) ha, hpy, if_neg ha]
          simp at ih ⊢
          omega

/-- C4: for every readable, decodable file whose name ends in `.go`, the
loop body adds one to the file counter and exactly the file's spec-side
line count (newline-terminated segments plus a trailing unterminated final
line) to the line total. -/
theorem go_file_contribution (acc : Nat × Nat) (f : PFile) (c : List Char)
    (hc : f.content = some c) (hgo : pyEndswith f.name ".go" = true) :
    processFile acc f = Except.ok (acc.1 + 1, acc.2 + specLineCount c) := by
  simp [processFile, hgo, hc, pyReadlines_length]

/-- Witness for C4 at a two-line file whose final line is unterminated. -/
theorem go_file_contribution_witness :
    processFile (0, 0) ⟨"a.go", some "x\ny".data⟩ =
      Except.ok (1, specLineCount "x\ny".data) := by
  simpa using
    go_file_contribution (0, 0) ⟨"a.go", some "x\ny".data⟩ "x\ny".data rfl (by decide)

/-- Helper: the inner loop leaves the accumulator unchanged when no file in
the list matches the `.go` filter. -/
theorem processFiles_skip (fs : List PFile) (acc : Nat × Nat)
    (h : ∀ f ∈ fs, pyEndswith f.name ".go" = false) :
    processFiles acc fs = Except.ok acc := by
  induction fs with
  | nil => rfl
  | cons f fs ih =>
    have hf : processFile acc f = Except.ok acc := by
      simp [processFile, h f (List.mem_cons_self f fs)]
    simp [processFiles, hf, ih (fun u hu => h u (List.mem_cons_of_mem f hu))]

/-- Helper: the outer loop leaves the accumulator unchanged when no file in
the walk matches the `.go` filter. -/
theorem processWalk_skip (w : List (String × List PFile)) (acc : Nat × Nat)
    (h : ∀ p ∈ w, ∀ f ∈ p.2, pyEndswith f.name ".go" = false) :
    processWalk acc w = Except.ok acc := by
  induction w with
  | nil => rfl
  | cons p rest ih =>
    obtain ⟨r, fs⟩ := p
    have h1 : processFiles acc fs = Except.ok acc :=
      processFiles_skip fs acc (fun f hf => h (r, fs) (List.mem_cons_self _ _) f hf)
    simp [processWalk, h1, ih (fun q hq => h q (List.mem_cons_of_mem _ hq))]

/-- C5: a directory tree with zero files matching the `.go` filter yields
the pair `(0, 0)`: zero matching files and zero total lines. -/
theorem count_go_lines_zero (directory : String) (es : FSEntries)
    (h : ∀ p ∈ osWalk directory es, ∀ f ∈ p.2, pyEndswith f.name ".go" = false) :
    count_go_lines directory es = Except.ok (0, 0) :=
  processWalk_skip (osWalk directory es) (0, 0) h

/-- Witness for C5 at a tree holding only non-matching files. -/
theorem count_go_lines_zero_witness :
    count_go_lines "." (entriesOfList [FSNode.file "c.txt" (some "hello".data),
      FSNode.file "d.py" none]) = Except.ok (0, 0) :=
  count_go_lines_zero "." _ (by decide)

/-- Helper: one loop-body step never decreases either counter. -/
theorem processFile_mono (acc : Nat × Nat) (f : PFile) (a : Nat × Nat)
    (h : processFile acc f = Except.ok a) : acc.1 ≤ a.1 ∧ acc.2 ≤ a.2 := by
  unfold processFile at h
  split at h
  · split at h
    · cases h
    · cases h
      exact ⟨Nat.le_succ _, Nat.le_add_right _ _⟩
  · cases h
    exact ⟨Nat.le_refl _, Nat.le_refl _⟩

/-- Helper: the inner loop never decreases either counter. -/
theorem processFiles_mono (fs : List PFile) :
    ∀ acc a : Nat × Nat, processFiles acc fs = Except.ok a →
      acc.1 ≤ a.1 ∧ acc.2 ≤ a.2 := by
  induction fs with
  | nil =>
    intro acc a h
    cases h
    exact ⟨Nat.le_refl _, Nat.le_refl _⟩
  | cons f fs ih =>
    intro acc a h
    cases hf : processFile acc f with
    | error e =>
      rw [show processFiles acc (f :: fs) = Except.error e by
        simp [processFiles, hf]] at h
      cases h
    | ok b =>
      rw [show processFiles acc (f :: fs) = processFiles b fs by
        simp [processFiles, hf]] at h
      have h1 := processFile_mono acc f b hf
      have h2 := ih b a h
      exact ⟨Nat.le_trans h1.1 h2.1, Nat.le_trans h1.2 h2.2⟩

/-- Helper: the outer loop never decreases either counter. -/
theorem processWalk_mono (w : List (String × List PFile)) :
    ∀ acc a : Nat × Nat, processWalk acc w = Except.ok a →
      acc.1 ≤ a.1 ∧ acc.2 ≤ a.2 := by
  induction w with
  | nil =>
    intro acc a h
    cases h
    exact ⟨Nat.le_refl _, Nat.le_refl _⟩
  | cons p rest ih =>
    intro acc a h
    obtain ⟨r, fs⟩ := p
    cases hf : processFiles acc fs with
    | error e =>
      rw [show processWalk acc ((r, fs) :: rest) = Except.error e by
        simp [processWalk, hf]] at h
      cases h
    | ok b =>
      rw [show processWalk acc ((r, fs) :: rest) = processWalk b rest by
        simp [processWalk, hf]] at h
      have h1 := processFiles_mono fs acc b hf
      have h2 := ih b a h
      exact ⟨Nat.le_trans h1.1 h2.1, Nat.le_trans h1.2 h2.2⟩

/-- C7: the two counters accumulate monotonically: every per-file step, and
any stretch of the traversal, leaves each counter greater than or equal to
its previous value, and the run is a single pass from `(0, 0)` with no
reset. -/
theorem counters_monotone :
    (∀ (acc : Nat × Nat) (f : PFile) (a : Nat × Nat),
        processFile acc f = Except.ok a → acc.1 ≤ a.1 ∧ acc.2 ≤ a.2) ∧
    (∀ (acc : Nat × Nat) (w : List (String × List PFile)) (a : Nat × Nat),
        processWalk acc w = Except.ok a → acc.1 ≤ a.1 ∧ acc.2 ≤ a.2) ∧
    (∀ (directory : String) (es : FSEntries),
        count_go_lines directory es = processWalk (0, 0) (osWalk directory es)) :=
  ⟨fun acc f a h => processFile_mono acc f a h,
   fun acc w a h => processWalk_mono w acc a h,
   fun _ _ => rfl⟩

/-- Witness for C7 at a one-file step that raises both counters. -/
theorem counters_monotone_witness : (0 : Nat) ≤ 1 ∧ (0 : Nat) ≤ 1 :=
  counters_monotone.1 (0, 0) ⟨"w.go", some ['x']⟩ (1, 1) rfl

/-- The end-to-end scenario tree: `a.go` with 3 lines at the root, and a
subdirectory holding `b.go` with 5 lines and `c.txt` with 100 lines. -/
def scenarioTree : FSEntries :=
  entriesOfList
    [FSNode.file "a.go" (some "one\ntwo\nthree\n".data),
     FSNode.dir "sub" (entriesOfList
       [FSNode.file "b.go" (some "1\n2\n3\n4\n5\n".data),
        FSNode.file "c.txt" (some (List.replicate 100 '\n'))])]

/-- C6: on the scenario tree — `a.go` (3 lines) at the root and `b.go`
(5 lines) plus `c.txt` (100 lines) in a nested subdirectory —
`count_go_lines` returns `(2, 8)`, the program prints the two summary
lines, and a file named `c.txt` is skipped with its content never read:
the loop body's result does not depend on it, even when opening it would
raise. -/
theorem scenario_counts :
    count_go_lines "." scenarioTree = Except.ok (2, 8) ∧
    lineCounterMain scenarioTree =
      Except.ok ["Total Go files: 2", "Total lines of Go code: 8"] ∧
    (∀ (acc : Nat × Nat) (c : Option (List Char)),
      processFile acc ⟨"c.txt", c⟩ = Except.ok acc) := by
  refine ⟨rfl, rfl, ?_⟩
  intro acc c
  have hng : pyEndswith "c.txt" ".go" = false := rfl
  simp [processFile, hng]

/-- Helper: the inner loop raises when some file in the list matches the
`.go` filter but cannot be opened or decoded. -/
theorem processFiles_error (fs : List PFile) :
    ∀ acc : Nat × Nat,
      (∃ f ∈ fs, pyEndswith f.name ".go" = true ∧ f.content = none) →
      processFiles acc fs = Except.error () := by
  induction fs with
  | nil =>
    intro acc h
    simp at h
  | cons f fs ih =>
    intro acc h
    rcases h with ⟨g, hg, hgo, hc⟩
    rcases List.mem_cons.mp hg with rfl | hmem
    · have hf : processFile acc g = Except.error () := by
        simp [processFile, hgo, hc]
      simp [processFiles, hf]
    · cases hf : processFile acc f with
      | error e =>
        cases e
        simp [processFiles, hf]
      | ok b =>
        simp [processFiles, hf]
        exact ih b ⟨g, hmem, hgo, hc⟩

/-- Helper: the outer loop raises when some file in the walk matches the
`.go` filter but cannot be opened or decoded. -/
theorem processWalk_error (w : List (String × List PFile)) :
    ∀ acc : Nat × Nat,
      (∃ p ∈ w, ∃ f ∈ p.2, pyEndswith f.name ".go" = true ∧ f.content = none) →
      processWalk acc w = Except.error () := by
  induction w with
  | nil =>
    intro acc h
    simp at h
  | cons p rest ih =>
    intro acc h
    obtain ⟨r, fs⟩ := p
    rcases h with ⟨q, hq, g, hgf, hgo, hc⟩
    rcases List.mem_cons.mp hq with rfl | hmem
    · have hf : processFiles acc fs = Except.error () :=
        processFiles_error fs acc ⟨g, hgf, hgo, hc⟩
      simp [processWalk, hf]
    · cases hf : processFiles acc fs with
      | error e =>
        cases e
        simp [processWalk, hf]
      | ok b =>
        simp [processWalk, hf]
        exact ih b ⟨q, hmem, g, hgf, hgo, hc⟩

/-- C9: when the walk reaches a `.go` file that cannot be opened for
reading or decoded as UTF-8, the failure propagates out of
`count_go_lines`: the run yields the propagated error and no partial
`(count, total)` pair. -/
theorem unreadable_go_file_aborts (directory : String) (es : FSEntries)
    (h : ∃ p ∈ osWalk directory es, ∃ f ∈ p.2,
      pyEndswith f.name ".go" = true ∧ f.content = none) :
    count_go_lines directory es = Except.error () :=
  processWalk_error (osWalk directory es) (0, 0) h

/-- Witness for C9 at a tree whose single `.go` file cannot be read. -/
theorem unreadable_go_file_aborts_witness :
    count_go_lines "." (entriesOfList [FSNode.file "bad.go" none]) =
      Except.error () :=
  unreadable_go_file_aborts "." (entriesOfList [FSNode.file "bad.go" none])
    (by decide)

/-- C10: a regular file enters the counting branch exactly when its name
ends in the three characters `.go`, case-sensitively: a file named exactly
`.go` matches, names ending in `.GO` or `.Go` do not, and a directory whose
name ends in `.go` is walked as a directory, never counted as a file. -/
theorem go_filter_semantics :
    (∀ (acc : Nat × Nat) (f : PFile) (c : List Char), f.content = some c →
        (processFile acc f =
            Except.ok (acc.1 + 1, acc.2 + (pyReadlines c).length) ↔
          pyEndswith f.name ".go" = true)) ∧
    pyEndswith ".go" ".go" = true ∧
    pyEndswith "main.GO" ".go" = false ∧
    pyEndswith "main.Go" ".go" = false ∧
    count_go_lines "." (entriesOfList [FSNode.dir "pkg.go" FSEntries.nil]) =
      Except.ok (0, 0) := by
  refine ⟨?_, rfl, rfl, rfl, rfl⟩
  · intro acc f c hc
    constructor
    · intro h
      by_contra hgo
      rw [Bool.not_eq_true] at hgo
      simp [processFile, hgo, hc] at h
      have h1 := congrArg Prod.fst h
      simp at h1
    · intro hgo
      simp [processFile, hgo, hc]

/-- Witness for C10: the file named exactly `.go` is counted. -/
theorem go_filter_semantics_witness :
    processFile (0, 0) ⟨".go", some []⟩ = Except.ok (1, 0) := by
  simpa using (go_filter_semantics.1 (0, 0) ⟨".go", some []⟩ [] rfl).mpr rfl

end Linecount

/-- C8: both utilities are deterministic in their modelled inputs: against
an unchanged database, and against an unchanged tree in unchanged
enumeration order, two runs produce identical results. -/
theorem utilities_deterministic :
    (∀ db : Dbprint.DB, Dbprint.dbprint_run db = Dbprint.dbprint_run db) ∧
    (∀ (directory : String) (es : Linecount.FSEntries),
      Linecount.count_go_lines directory es =
        Linecount.count_go_lines directory es) :=
  ⟨fun _ => rfl, fun _ _ => rfl⟩
